import Mathlib

/-!
Shallow embedding of the streaming transcription backend
(`src/backend/segmenter.py`, `src/backend/ws.py`,
`src/backend/whisper_server_client.py`, `src/backend/main.py`).

Python floats are modelled as rationals (every comparison and arithmetic
operation performed by the embedded code on these values is exact in the
range exercised), PCM sample values as rationals, numpy arrays as lists,
Python dicts as association lists, and raised exceptions as `Except.error`
results.  Asynchronous callbacks are modelled by returning the list of
emitted values alongside the new state.
-/

/-! ## AudioSegmenter (src/backend/segmenter.py)

The class holds `min_seconds`, `max_seconds`, `sample_rate` and a sample
buffer.  The registered `on_segment_ready` callback is modelled by the
second component of each operation's result: the list of audio segments
handed to the callback, in order. -/

structure AudioSegmenter where
  min_seconds : ℚ
  max_seconds : ℚ
  sample_rate : ℕ
  buffer : List ℚ
deriving Repr, DecidableEq

/-- `self.buffer.size / self.sample_rate` (the `current_duration` local). -/
def AudioSegmenter.currentDur (s : AudioSegmenter) : ℚ :=
  (s.buffer.length : ℚ) / (s.sample_rate : ℚ)

/-- `AudioSegmenter._process` (segmenter.py 26-32): if the buffer is empty
do nothing, otherwise emit a copy of the buffer to the callback and clear
the buffer. -/
def AudioSegmenter._process (s : AudioSegmenter) : AudioSegmenter × List (List ℚ) :=
  if s.buffer = [] then (s, [])
  else ({ s with buffer := [] }, [s.buffer])

/-- `AudioSegmenter.push_audio_chunk` (segmenter.py 12-19): ignore empty
chunks; append the chunk; if the buffered duration reached `max_seconds`,
close via `_process`. -/
def AudioSegmenter.push_audio_chunk (s : AudioSegmenter) (chunk : List ℚ) :
    AudioSegmenter × List (List ℚ) :=
  if chunk = [] then (s, [])
  else
    let s' : AudioSegmenter := { s with buffer := s.buffer ++ chunk }
    if s'.currentDur ≥ s'.max_seconds then s'._process else (s', [])

/-- `AudioSegmenter.notify_silence` (segmenter.py 21-24): close via
`_process` when the buffered duration is at least `min_seconds`. -/
def AudioSegmenter.notify_silence (s : AudioSegmenter) : AudioSegmenter × List (List ℚ) :=
  if s.currentDur ≥ s.min_seconds then s._process else (s, [])

/-- `AudioSegmenter.reset` (segmenter.py 34-35). -/
def AudioSegmenter.reset (s : AudioSegmenter) : AudioSegmenter :=
  { s with buffer := [] }

/-- Push a list of chunks one after the other, collecting every segment
emitted to the callback along the way. -/
def AudioSegmenter.pushAll (s : AudioSegmenter) : List (List ℚ) → AudioSegmenter × List (List ℚ)
  | [] => (s, [])
  | c :: rest =>
    let r := s.push_audio_chunk c
    let r2 := r.1.pushAll rest
    (r2.1, r.2 ++ r2.2)

/-- The methods the `AudioSegmenter` class body defines
(segmenter.py 4-35), in source order.  Python resolves `segmenter.flush()`
by attribute lookup against exactly this set. -/
def AudioSegmenter.methodNames : List String :=
  ["__init__", "push_audio_chunk", "notify_silence", "_process", "reset"]

/-- The idle-timeout handler (ws.py 463) performs the attribute lookup
`segmenter.flush` and calls it; on a class without that attribute the
lookup itself raises `AttributeError`. -/
def idleTimeoutFlushCall : Except String Unit :=
  if AudioSegmenter.methodNames.contains "flush" then Except.ok ()
  else Except.error "AttributeError: AudioSegmenter object has no attribute flush"

/-! Helper lemmas for the segmenter. -/

theorem pushAll_accumulates (s : AudioSegmenter) (chunks : List (List ℚ))
    (hrate : 0 < s.sample_rate)
    (hmax : ((s.buffer.length : ℚ) + (chunks.flatten.length : ℚ)) / (s.sample_rate : ℚ)
              < s.max_seconds) :
    s.pushAll chunks = ({ s with buffer := s.buffer ++ chunks.flatten }, []) := by
  induction chunks generalizing s with
  | nil =>
    simp [AudioSegmenter.pushAll]
  | cons c rest ih =>
    have hflat : (((c :: rest).flatten.length : ℕ) : ℚ)
        = (c.length : ℚ) + (rest.flatten.length : ℚ) := by
      push_cast [List.flatten_cons, List.length_append]
      ring
    by_cases hc : c = []
    · subst hc
      have hmax' : ((s.buffer.length : ℚ) + (rest.flatten.length : ℚ)) / (s.sample_rate : ℚ)
          < s.max_seconds := by
        rw [hflat] at hmax
        simpa using hmax
      simp [AudioSegmenter.pushAll, AudioSegmenter.push_audio_chunk, ih s hrate hmax']
    · have hrq : (0 : ℚ) < (s.sample_rate : ℚ) := by exact_mod_cast hrate
      set s' : AudioSegmenter := { s with buffer := s.buffer ++ c } with hs'
      have hnum : ((s'.buffer.length : ℚ) + (rest.flatten.length : ℚ))
          = (s.buffer.length : ℚ) + (((c :: rest).flatten.length : ℕ) : ℚ) := by
        rw [hflat, hs']
        push_cast [List.length_append]
        ring
      have hmax' : ((s'.buffer.length : ℚ) + (rest.flatten.length : ℚ)) / (s.sample_rate : ℚ)
          < s.max_seconds := by
        rw [hnum]
        exact hmax
      have hjl : (0 : ℚ) ≤ (rest.flatten.length : ℚ) := by positivity
      have hdurEq : s'.currentDur = (s'.buffer.length : ℚ) / (s.sample_rate : ℚ) := rfl
      have hdur : s'.currentDur < s'.max_seconds := by
        rw [hdurEq]
        calc (s'.buffer.length : ℚ) / (s.sample_rate : ℚ)
            ≤ ((s'.buffer.length : ℚ) + (rest.flatten.length : ℚ)) / (s.sample_rate : ℚ) := by
              gcongr
              linarith
          _ < s.max_seconds := hmax'
      have hih := ih s' hrate hmax'
      simp only [AudioSegmenter.pushAll, AudioSegmenter.push_audio_chunk, if_neg hc]
      rw [if_neg (not_le.mpr hdur)]
      rw [hih]
      simp [hs', List.flatten_cons, List.append_assoc]

/-- Claim C3: after pushing a non-empty sequence of non-empty chunks whose
total duration stays strictly below `max_seconds` (so no implicit close
fires), a single `notify_silence` emits exactly one segment equal to the
concatenation of everything pushed and clears the buffer when the total
duration is at least `min_seconds`; when it is below `min_seconds`,
`notify_silence` changes nothing and emits nothing. -/
theorem notify_silence_exact (s : AudioSegmenter) (chunks : List (List ℚ))
    (hrate : 0 < s.sample_rate) (hbuf : s.buffer = [])
    (hne : chunks ≠ []) (hch : ∀ c ∈ chunks, c ≠ [])
    (hmax : ((chunks.flatten.length : ℚ)) / (s.sample_rate : ℚ) < s.max_seconds) :
    (s.pushAll chunks).2 = [] ∧
    (s.min_seconds ≤ (chunks.flatten.length : ℚ) / (s.sample_rate : ℚ) →
      (s.pushAll chunks).1.notify_silence = ({ s with buffer := [] }, [chunks.flatten])) ∧
    ((chunks.flatten.length : ℚ) / (s.sample_rate : ℚ) < s.min_seconds →
      (s.pushAll chunks).1.notify_silence = ((s.pushAll chunks).1, [])) := by
  have hacc := pushAll_accumulates s chunks hrate (by rw [hbuf]; simpa using hmax)
  have hjoin : chunks.flatten ≠ [] := by
    obtain ⟨c, rest, rfl⟩ : ∃ c rest, chunks = c :: rest := by
      cases chunks with
      | nil => exact absurd rfl hne
      | cons c rest => exact ⟨c, rest, rfl⟩
    have hc := hch c (by simp)
    simp only [List.flatten_cons, ne_eq]
    intro h
    exact hc (List.append_eq_nil.mp h).1
  have hdur : ({ s with buffer := s.buffer ++ chunks.flatten } : AudioSegmenter).currentDur
      = (chunks.flatten.length : ℚ) / (s.sample_rate : ℚ) := by
    simp [AudioSegmenter.currentDur, hbuf]
  refine ⟨by rw [hacc], ?_, ?_⟩
  · intro hmin
    rw [hacc]
    simp only [AudioSegmenter.notify_silence, AudioSegmenter._process]
    rw [if_pos (by rw [hdur]; exact hmin)]
    rw [if_neg (by simp [hbuf, hjoin])]
    simp [hbuf]
  · intro hmin
    rw [hacc]
    simp only [AudioSegmenter.notify_silence]
    rw [if_neg (by rw [hdur]; exact not_le.mpr hmin)]

/-- Arithmetic fact used by the witness below: three samples at 2 samples/s
last 1.5 seconds, which is under the 3 s maximum. -/
theorem three_samples_under_max :
    ((([[1, 2], [3]] : List (List ℚ)).flatten.length : ℚ)) / ((2 : ℕ) : ℚ) < 3 := by
  norm_num

/-- Arithmetic fact used by the witness below: three samples at 2 samples/s
last 1.5 seconds, which reaches the 1 s minimum. -/
theorem three_samples_over_min :
    (1 : ℚ) ≤ ((([[1, 2], [3]] : List (List ℚ)).flatten.length : ℚ)) / ((2 : ℕ) : ℚ) := by
  norm_num

/-- Witness for `notify_silence_exact` at a concrete segmenter
(min 1s, max 3s, 2 samples/s) and chunk sequence. -/
theorem notify_silence_exact_witness :
    ((⟨1, 3, 2, []⟩ : AudioSegmenter).pushAll [[1, 2], [3]]).1.notify_silence
      = (({ (⟨1, 3, 2, []⟩ : AudioSegmenter) with buffer := [] }),
          [[(1 : ℚ), 2, 3]]) :=
  (notify_silence_exact ⟨1, 3, 2, []⟩ [[1, 2], [3]] (by decide) rfl (by decide)
      (by decide) three_samples_under_max).2.1 three_samples_over_min

/-- Claim C2 (code bug): the `AudioSegmenter` class defines no `flush`
method, so the idle-timeout call `segmenter.flush()` in ws.py 463 raises
`AttributeError` instead of force-closing the buffer. -/
theorem flush_method_missing :
    idleTimeoutFlushCall
      = Except.error "AttributeError: AudioSegmenter object has no attribute flush" :=
  rfl

/-! ## Text classification (src/backend/ws.py 57-92)

`_is_latin_like` asks whether the Unicode name of a character contains the
substring "LATIN"; characters without a name (a `ValueError` in Python)
count as not Latin-like.  The two Unicode oracles — `str.isalpha` and
`unicodedata.name` — are Python-stdlib lookups external to the repository,
so the embedding takes them as parameters; finite sample tables
(`pyIsAlphaSample`, `pyUnicodeNameSample`) model their values on the
characters exercised by concrete instances. -/

def startsWithL : List Char → List Char → Bool
  | _, [] => true
  | [], _ :: _ => false
  | h :: hs, n :: ns => h = n && startsWithL hs ns

def listContainsSub : List Char → List Char → Bool
  | [], needle => needle.isEmpty
  | hay@(_ :: t), needle => startsWithL hay needle || listContainsSub t needle

/-- `_is_latin_like` (ws.py 57-68). -/
def _is_latin_like (nameOf : Char → Option String) (ch : Char) : Bool :=
  match nameOf ch with
  | some n => listContainsSub n.data "LATIN".data
  | none => false

/-- The `for ch in text` loop of `should_ignore_non_latin` (ws.py 85-90),
threading the `has_letter` and `has_latin` accumulators and breaking at
the first Latin-like alphabetic character. -/
def nonLatinScan (isalpha : Char → Bool) (nameOf : Char → Option String) :
    List Char → Bool → Bool → Bool × Bool
  | [], has_letter, has_latin => (has_letter, has_latin)
  | ch :: rest, has_letter, has_latin =>
    if isalpha ch then
      if _is_latin_like nameOf ch then (true, true)
      else nonLatinScan isalpha nameOf rest true has_latin
    else nonLatinScan isalpha nameOf rest has_letter has_latin

/-- `should_ignore_non_latin` (ws.py 71-92). -/
def should_ignore_non_latin (isalpha : Char → Bool) (nameOf : Char → Option String)
    (text : String) (allow_non_latin : Bool) : Bool :=
  if allow_non_latin then false
  else
    let r := nonLatinScan isalpha nameOf text.data false false
    r.1 && !r.2

/-- Sample of the Python `str.isalpha` classification (modelled from the
Unicode Alphabetic property of the Python stdlib, external to the
repository): ASCII letters and the main Cyrillic letter ranges. -/
def pyIsAlphaSample (c : Char) : Bool :=
  ('a' ≤ c && c ≤ 'z') || ('A' ≤ c && c ≤ 'Z') ||
    ('а' ≤ c && c ≤ 'я') || ('А' ≤ c && c ≤ 'Я')

/-- Sample of `unicodedata.name` (Python stdlib, external to the
repository) on the characters used in concrete instances below. -/
def pyUnicodeNameSample : Char → Option String
  | 'д' => some "CYRILLIC SMALL LETTER DE"
  | 'а' => some "CYRILLIC SMALL LETTER A"
  | 'o' => some "LATIN SMALL LETTER O"
  | 'k' => some "LATIN SMALL LETTER K"
  | _ => none

theorem nonLatinScan_spec (isalpha : Char → Bool) (nameOf : Char → Option String)
    (cs : List Char) (hl hlat : Bool) :
    nonLatinScan isalpha nameOf cs hl hlat
      = (hl || cs.any isalpha,
         hlat || cs.any (fun c => isalpha c && _is_latin_like nameOf c)) := by
  induction cs generalizing hl hlat with
  | nil => simp [nonLatinScan]
  | cons c rest ih =>
    by_cases ha : isalpha c
    · by_cases hlk : _is_latin_like nameOf c
      · simp [nonLatinScan, ha, hlk]
      · simp [nonLatinScan, ha, hlk, ih]
    · simp [nonLatinScan, ha, ih]

/-- Claim C4: `should_ignore_non_latin(text, allow_non_latin)` is `True`
exactly when the flag is off, the text has at least one alphabetic
character, and no alphabetic character of the text is Latin-like; in
particular all-Cyrillic text is suppressed with the flag off, passed with
the flag on, and text containing a Latin letter is never suppressed. -/
theorem should_ignore_non_latin_spec :
    (∀ (isalpha : Char → Bool) (nameOf : Char → Option String)
        (text : String) (allow_non_latin : Bool),
      should_ignore_non_latin isalpha nameOf text allow_non_latin = true ↔
        (allow_non_latin = false ∧ (∃ c ∈ text.data, isalpha c = true) ∧
          ∀ c ∈ text.data, isalpha c = true → _is_latin_like nameOf c = false)) ∧
    should_ignore_non_latin pyIsAlphaSample pyUnicodeNameSample "да" false = true ∧
    should_ignore_non_latin pyIsAlphaSample pyUnicodeNameSample "да" true = false ∧
    should_ignore_non_latin pyIsAlphaSample pyUnicodeNameSample "даok" false = false := by
  refine ⟨?_, by decide, by decide, by decide⟩
  intro isalpha nameOf text allow
  unfold should_ignore_non_latin
  by_cases hall : allow
  · simp [hall]
  · have hallf : allow = false := by simpa using hall
    rw [nonLatinScan_spec]
    simp [hallf, List.any_eq_true]

/-! ## Session partial-inference state machine (src/backend/ws.py 115-491)

The per-session mutable locals relevant to partial inference:
`is_processing_partial`, `last_partial_time`, `last_processed_size`,
`current_segment_id`, and the engine availability (`engine_local` not
`None` / `engine_task.done()`).  Times are in milliseconds.  The body of
`process_partial` splits into a synchronous gate phase (ws.py 281-319,
runs atomically on the event loop before the executor `await`) and a
resolve phase (ws.py 330-362, runs after the inference result arrives). -/

def SAMPLE_RATE : ℕ := 16000

structure InterimState where
  isProcessing : Bool
  lastTime : ℚ
  lastProcessedSize : ℕ
  segId : ℕ
  engineLoaded : Bool
  loadTaskDone : Bool
deriving Repr, DecidableEq

/-- The early-return gate of `process_partial` (ws.py 281-308), in source
order: busy flag, interval floor, rate limit, 0.5 s minimum buffer, buffer
growth since the last processed partial, engine availability. -/
def interimGate (intervalMs : ℚ) (st : InterimState) (nowMs : ℚ) (bufLen : ℕ) : Bool :=
  if st.isProcessing then false
  else if intervalMs < 100 then false
  else if nowMs - st.lastTime < intervalMs then false
  else if (bufLen : ℚ) < (SAMPLE_RATE : ℚ) * (1 / 2) then false
  else if bufLen ≤ st.lastProcessedSize then false
  else if st.engineLoaded then true
  else st.loadTaskDone

/-- The synchronous phase of `process_partial`: when the gate passes, mark
the busy flag, record the attempt time (ws.py 310-313) and hand a copy of
the buffer (ws.py 319) to the inference engine; otherwise return without
invoking the engine. -/
def interimPhase1 (intervalMs : ℚ) (st : InterimState) (nowMs : ℚ) (buf : List ℚ) :
    Option (List ℚ) × InterimState :=
  if interimGate intervalMs st nowMs buf.length then
    (some buf, { st with isProcessing := true, lastTime := nowMs })
  else (none, st)

/-- The `finally` clause of `process_partial` (ws.py 361-362). -/
def endAttempt (st : InterimState) : InterimState :=
  { st with isProcessing := false }

/-- Python `str.strip()`: drop whitespace from both ends. -/
def stripStr (s : String) : String :=
  String.mk (((s.data.dropWhile Char.isWhitespace).reverse.dropWhile
    Char.isWhitespace).reverse)

/-- The hallucination denylist `IGNORED_TEXTS` (ws.py 27-33). -/
def IGNORED_TEXTS : List String :=
  ["Thank you.", "[BLANK_AUDIO]", "Thanks for watching!", "MBC News", "You"]

/-- The resolve phase of `process_partial` (ws.py 330-362): strip the raw
text, blank it if denylisted or (when not allowed) purely non-Latin, and
only if the captured `my_segment_id` still equals `current_segment_id`
record `last_processed_size` and send the partial message (returned as the
first component); the `finally` clause clears the busy flag on every path. -/
def interimResolve (isalpha : Char → Bool) (nameOf : Char → Option String)
    (allow_non_latin : Bool) (mySegmentId : ℕ) (raw : Option String)
    (curSize : ℕ) (st : InterimState) : Option String × InterimState :=
  let text0 := stripStr (raw.getD "")
  let text1 := if text0 ∈ IGNORED_TEXTS then "" else text0
  let text2 :=
    if text1 ≠ "" ∧ should_ignore_non_latin isalpha nameOf text1 allow_non_latin = true
    then "" else text1
  let st' : InterimState := { st with isProcessing := false }
  if text2 ≠ "" then
    if mySegmentId ≠ st.segId then (none, st')
    else (some text2, { st' with lastProcessedSize := curSize })
  else (none, st')

/-- The segment-epoch bump shared by `on_segment_ready` (ws.py 222-223)
and the `select_model` handler (ws.py 430-431): increment
`current_segment_id` and zero `last_processed_size`. -/
def bumpEpoch (st : InterimState) : InterimState :=
  { st with segId := st.segId + 1, lastProcessedSize := 0 }

/-- The `partial_interval` branch of the `set_params` handler
(ws.py 448-449): the session stores the given value as-is. -/
def setParamsInterimInterval (_current v : ℚ) : ℚ := v

/-- Claim C1: a partial-inference result that resolves after the session's
segment epoch moved past the captured `my_segment_id` is discarded: no
partial message is emitted and `last_processed_size` keeps its value (the
epoch itself is also untouched); and every finalize/model-switch bump
changes the epoch, so results captured before a bump are always stale. -/
theorem stale_interim_result_never_applied (isalpha : Char → Bool)
    (nameOf : Char → Option String) (allow_non_latin : Bool) (mySegmentId : ℕ)
    (raw : Option String) (curSize : ℕ) (st : InterimState)
    (h : mySegmentId ≠ st.segId) :
    (interimResolve isalpha nameOf allow_non_latin mySegmentId raw curSize st).1 = none ∧
    (interimResolve isalpha nameOf allow_non_latin mySegmentId raw curSize st).2.lastProcessedSize
      = st.lastProcessedSize ∧
    (interimResolve isalpha nameOf allow_non_latin mySegmentId raw curSize st).2.segId
      = st.segId ∧
    (∀ s : InterimState, (bumpEpoch s).segId ≠ s.segId) := by
  refine ⟨?_, ?_, ?_, fun s => by simp [bumpEpoch]⟩ <;>
    simp [interimResolve, h]

/-- Witness for `stale_interim_result_never_applied`: an attempt captured
at epoch 0 resolving at epoch 1. -/
theorem stale_interim_result_never_applied_witness :
    (interimResolve pyIsAlphaSample pyUnicodeNameSample false 0 (some "hello") 9000
        ⟨false, 0, 0, 1, true, true⟩).1 = none ∧
    (interimResolve pyIsAlphaSample pyUnicodeNameSample false 0 (some "hello") 9000
        ⟨false, 0, 0, 1, true, true⟩).2.lastProcessedSize = 0 ∧
    (interimResolve pyIsAlphaSample pyUnicodeNameSample false 0 (some "hello") 9000
        ⟨false, 0, 0, 1, true, true⟩).2.segId = 1 ∧
    (∀ s : InterimState, (bumpEpoch s).segId ≠ s.segId) :=
  stale_interim_result_never_applied pyIsAlphaSample pyUnicodeNameSample false 0
    (some "hello") 9000 ⟨false, 0, 0, 1, true, true⟩ (by decide)

/-- Claim C9: with fewer than 8000 buffered samples (0.5 s at 16 kHz) the
gate of `process_partial` fails, so no inference is started, no partial
message can be sent, and the session state is untouched. -/
theorem interim_skips_small_buffer (intervalMs : ℚ) (st : InterimState) (nowMs : ℚ)
    (buf : List ℚ) (h : buf.length < 8000) :
    interimPhase1 intervalMs st nowMs buf = (none, st) := by
  have hsz : ((buf.length : ℚ)) < (SAMPLE_RATE : ℚ) * (1 / 2) := by
    have h8 : ((buf.length : ℚ)) < (8000 : ℚ) := by exact_mod_cast h
    have : ((SAMPLE_RATE : ℕ) : ℚ) * (1 / 2) = (8000 : ℚ) := by
      norm_num [SAMPLE_RATE]
    rw [this]
    exact h8
  unfold interimPhase1 interimGate
  simp
  intro _ _ _ hle
  rw [one_div] at hsz
  exact absurd hle (not_le.mpr hsz)

/-- Witness for `interim_skips_small_buffer`: an empty buffer. -/
theorem interim_skips_small_buffer_witness :
    interimPhase1 500 ⟨false, 0, 0, 0, true, true⟩ 1000 ([] : List ℚ)
      = (none, ⟨false, 0, 0, 0, true, true⟩) :=
  interim_skips_small_buffer 500 ⟨false, 0, 0, 0, true, true⟩ 1000 [] (by decide)

/-- Claim C8 counterexample: `set_params` stores `partial_interval` values
outside [100, 2000] unchanged, and the stored value does not behave as the
nearest bound.  With 2500 stored, a ready session (1 s of buffered audio,
engine loaded) whose last attempt was 2200 ms ago attempts nothing, while
the bound 2000 would attempt; with 50 stored, 150 ms after the last
attempt nothing is ever attempted, while the bound 100 would attempt. -/
theorem interim_interval_not_clamped :
    setParamsInterimInterval 500 2500 = 2500 ∧
    setParamsInterimInterval 500 50 = 50 ∧
    interimPhase1 2500 ⟨false, 0, 0, 0, true, true⟩ 2200 (List.replicate 16000 (0 : ℚ))
      = (none, ⟨false, 0, 0, 0, true, true⟩) ∧
    interimPhase1 2000 ⟨false, 0, 0, 0, true, true⟩ 2200 (List.replicate 16000 (0 : ℚ))
      = (some (List.replicate 16000 (0 : ℚ)), ⟨true, 2200, 0, 0, true, true⟩) ∧
    interimPhase1 50 ⟨false, 0, 0, 0, true, true⟩ 150 (List.replicate 16000 (0 : ℚ))
      = (none, ⟨false, 0, 0, 0, true, true⟩) ∧
    interimPhase1 100 ⟨false, 0, 0, 0, true, true⟩ 150 (List.replicate 16000 (0 : ℚ))
      = (some (List.replicate 16000 (0 : ℚ)), ⟨true, 150, 0, 0, true, true⟩) := by
  refine ⟨rfl, rfl, ?_, ?_, ?_, ?_⟩ <;>
    norm_num [interimPhase1, interimGate, SAMPLE_RATE]

/-- Claim C8 as amended: the partial-inference interval is stored by
`set_params` without clamping; `process_partial` makes no attempt at all
when the stored interval is below 100 ms, makes no attempt when less than
the stored interval has elapsed since the last attempt, and after a
successful attempt at time `nowMs` any call less than the stored interval
later again attempts nothing — at most one attempt per stored interval. -/
theorem interim_interval_rate_limit (curIv v intervalMs : ℚ) (st : InterimState)
    (nowMs nowMs2 : ℚ) (buf buf2 : List ℚ) :
    setParamsInterimInterval curIv v = v ∧
    (intervalMs < 100 → interimPhase1 intervalMs st nowMs buf = (none, st)) ∧
    (nowMs - st.lastTime < intervalMs → interimPhase1 intervalMs st nowMs buf = (none, st)) ∧
    (interimGate intervalMs st nowMs buf.length = true → nowMs2 - nowMs < intervalMs →
      interimPhase1 intervalMs (endAttempt (interimPhase1 intervalMs st nowMs buf).2) nowMs2 buf2
        = (none, endAttempt (interimPhase1 intervalMs st nowMs buf).2)) := by
  refine ⟨rfl, ?_, ?_, ?_⟩
  · intro h
    unfold interimPhase1 interimGate
    simp [h, not_le.mpr h]
  · intro h
    unfold interimPhase1 interimGate
    simp
    intro _ _ hle
    exact absurd hle (not_le.mpr h)
  · intro hg h2
    have hstep : (interimPhase1 intervalMs st nowMs buf).2
        = { st with isProcessing := true, lastTime := nowMs } := by
      unfold interimPhase1
      rw [if_pos hg]
    rw [hstep]
    unfold interimPhase1 interimGate endAttempt
    simp
    intro _ hle
    exact absurd hle (not_le.mpr h2)

/-- Witness for `interim_interval_rate_limit`: a 50 ms interval makes
`process_partial` return immediately. -/
theorem interim_interval_rate_limit_witness :
    interimPhase1 50 ⟨false, 0, 0, 0, true, true⟩ 1000 ([] : List ℚ)
      = (none, ⟨false, 0, 0, 0, true, true⟩) :=
  (interim_interval_rate_limit 500 2500 50 ⟨false, 0, 0, 0, true, true⟩ 1000 0
      [] []).2.1 (by decide)

/-! ## WhisperServerManager (src/backend/whisper_server_client.py)

Python dicts (`self.processes`, `self.socket_counts`) are modelled as
association lists with dict-assignment update semantics (replace in
place, append when new).  Every body below runs either entirely under
`self.manager_lock` (`_get_or_start`, `update_socket_count`) or touches a
single entry, so each embedded operation is one atomic step; a concurrent
execution of N such operations is some sequential interleaving of these
steps. -/

def lookupA {α : Type} : List (String × α) → String → Option α
  | [], _ => none
  | (k, v) :: rest, key => if k = key then some v else lookupA rest key

def setA {α : Type} : List (String × α) → String → α → List (String × α)
  | [], key, v => [(key, v)]
  | (k, w) :: rest, key, v =>
    if k = key then (k, v) :: rest else (k, w) :: setA rest key v

/-- The per-process state of `WhisperServerProcess` that the claims touch:
the `active_requests` counter and whether the subprocess handle is live
(`is_running`, whisper_server_client.py 91-92). -/
structure WhisperServerProcess where
  active_requests : Int
  running : Bool
deriving Repr, DecidableEq

/-- `WhisperServerManager.stop_server` (whisper_server_client.py 255-262):
`False` for an unknown or not-running model, a raised `RuntimeError` when
`active_requests > 0` (the process is left untouched), otherwise
`proc.stop()` and `True`. -/
def stop_server (processes : List (String × WhisperServerProcess))
    (model_name : String) :
    Except String Bool × List (String × WhisperServerProcess) :=
  match lookupA processes model_name with
  | none => (Except.ok false, processes)
  | some proc =>
    if proc.running = false then (Except.ok false, processes)
    else if proc.active_requests > 0 then
      (Except.error ("Cannot stop server " ++ model_name), processes)
    else
      (Except.ok true, setA processes model_name { proc with running := false })

/-- Claim C5: `stop_server` returns `False` for an unknown or not-running
model; raises a conflict (distinct from the `False` not-found result) and
leaves the state untouched — the process still running — when the
active-request counter is positive; and with a zero counter on a running
process stops it and returns `True`. -/
theorem stop_server_spec (processes : List (String × WhisperServerProcess))
    (model_name : String) :
    (lookupA processes model_name = none →
      stop_server processes model_name = (Except.ok false, processes)) ∧
    (∀ p, lookupA processes model_name = some p → p.running = false →
      stop_server processes model_name = (Except.ok false, processes)) ∧
    (∀ p, lookupA processes model_name = some p → p.running = true →
      0 < p.active_requests →
      stop_server processes model_name
        = (Except.error ("Cannot stop server " ++ model_name), processes)) ∧
    (∀ p, lookupA processes model_name = some p → p.running = true →
      p.active_requests = 0 →
      stop_server processes model_name
        = (Except.ok true, setA processes model_name { p with running := false })) := by
  refine ⟨?_, ?_, ?_, ?_⟩
  · intro h
    unfold stop_server
    rw [h]
  · intro p hp hrun
    unfold stop_server
    rw [hp]
    simp [hrun]
  · intro p hp hrun hact
    unfold stop_server
    rw [hp]
    simp [hrun, hact]
  · intro p hp hrun hact
    unfold stop_server
    rw [hp]
    simp [hrun, hact]

/-- Witness for `stop_server_spec`: stopping a model with two in-flight
requests reports the conflict and leaves the registry unchanged. -/
theorem stop_server_spec_witness :
    stop_server [("base", ⟨2, true⟩)] "base"
      = (Except.error ("Cannot stop server " ++ "base"), [("base", ⟨2, true⟩)]) :=
  (stop_server_spec [("base", ⟨2, true⟩)] "base").2.2.1 ⟨2, true⟩ rfl rfl (by decide)

/-- The outcome of the fallible external steps of
`WhisperServerManager.transcribe_array` (whisper_server_client.py
198-229): whether `_get_or_start` returns a process, whether the
temporary-WAV write (`tempfile` + `sf.write`, lines 203-205) succeeds, and
whether the guarded HTTP block (lines 206-222, covered by the
`try/finally`) succeeds. -/
structure DispatchOutcome where
  startOk : Bool
  writeOk : Bool
  httpOk : Bool
deriving Repr, DecidableEq

/-- `WhisperServerManager.transcribe_array`, tracking the process's
`active_requests` counter: `_get_or_start` may raise before the increment;
the counter is incremented under `proc.lock` (line 201); the WAV write
happens after the increment but before the `try` block, so its failure
propagates without running the `finally` decrement; failures inside the
`try` block reach the `finally` decrement. -/
def transcribe_array (active : Int) (o : DispatchOutcome) : Except String Unit × Int :=
  if o.startOk = false then (Except.error "server start failed", active)
  else
    let active1 := active + 1
    if o.writeOk = false then (Except.error "sf.write failed", active1)
    else if o.httpOk = false then (Except.error "http request failed", active1 - 1)
    else (Except.ok (), active1 - 1)

/-- Claim C7 (code bug): when the temporary-WAV write raises after the
increment, `transcribe_array` exits exceptionally with the counter left at
one above its entry value — the `finally` decrement never runs — while the
paths that enter the guarded HTTP block restore the counter on success and
failure alike. -/
theorem transcribe_array_counter_leak :
    transcribe_array 0 ⟨true, false, true⟩ = (Except.error "sf.write failed", 1) ∧
    transcribe_array 0 ⟨true, true, true⟩ = (Except.ok (), 0) ∧
    transcribe_array 0 ⟨true, true, false⟩ = (Except.error "http request failed", 0) ∧
    (∀ (active : Int), (transcribe_array active ⟨true, false, true⟩).2 = active + 1) ∧
    (∀ (active : Int) (startOk httpOk : Bool),
      (transcribe_array active ⟨startOk, true, httpOk⟩).2 = active) := by
  refine ⟨rfl, rfl, rfl, fun active => rfl, ?_⟩
  intro active s h
  unfold transcribe_array
  cases s <;> cases h <;> simp

/-- The registry state of `WhisperServerManager` for `_get_or_start`:
`processes` maps a model name to the identity of its
`WhisperServerProcess`, `nextId` supplies fresh identities, and
`spawnCount` counts `WhisperServerProcess` creations (line 179). -/
structure Registry where
  processes : List (String × ℕ)
  nextId : ℕ
  spawnCount : ℕ
deriving Repr, DecidableEq

/-- `WhisperServerManager._get_or_start` (whisper_server_client.py
169-183).  The whole body runs under `self.manager_lock`, so it is one
atomic step.  A registered model is returned as-is (`proc.start()` only
restarts a dead OS process, registering nothing); otherwise model
resolution, the binary check and `proc.start()` may raise (`spawnOk =
false`) before the dict assignment, leaving the registry unchanged, and on
success exactly one new process is created and registered. -/
def _get_or_start (spawnOk : Bool) (r : Registry) (model_name : String) :
    Except String ℕ × Registry :=
  match lookupA r.processes model_name with
  | some pid => (Except.ok pid, r)
  | none =>
    if spawnOk then
      (Except.ok r.nextId,
        { processes := setA r.processes model_name r.nextId,
          nextId := r.nextId + 1, spawnCount := r.spawnCount + 1 })
    else (Except.error "whisper-server binary or model not found", r)

/-- One interleaving of N callers, each performing its `_get_or_start`
critical section in turn (the lock admits exactly these serializations). -/
def runRequests (spawnOk : Bool) : Registry → List String → List (Except String ℕ) × Registry
  | r, [] => ([], r)
  | r, m :: rest =>
    let r1 := _get_or_start spawnOk r m
    let r2 := runRequests spawnOk r1.2 rest
    (r1.1 :: r2.1, r2.2)

theorem lookupA_setA_self {α : Type} (l : List (String × α)) (k : String) (v : α) :
    lookupA (setA l k v) k = some v := by
  induction l with
  | nil => simp [setA, lookupA]
  | cons p rest ih =>
    by_cases hk : p.1 = k
    · simp [setA, hk, lookupA]
    · simp [setA, hk, lookupA, ih]

theorem runRequests_registered (spawnOk : Bool) (r : Registry) (model_name : String)
    (pid : ℕ) (n : ℕ) (h : lookupA r.processes model_name = some pid) :
    runRequests spawnOk r (List.replicate n model_name)
      = (List.replicate n (Except.ok pid), r) := by
  induction n with
  | zero => simp [runRequests]
  | succ m ih =>
    simp [List.replicate_succ, runRequests, _get_or_start, h, ih]

/-- Claim C6: starting from a registry that does not know `model_name`, N
serialized first-use calls of `_get_or_start` (N ≥ 1, any interleaving of
the lock-protected critical sections) spawn exactly one process, register
it for the model, and hand every one of the N callers that same process. -/
theorem supervisor_unique_spawn (r : Registry) (model_name : String) (n : ℕ)
    (hnew : lookupA r.processes model_name = none) (hn : 1 ≤ n) :
    (runRequests true r (List.replicate n model_name)).1
      = List.replicate n (Except.ok r.nextId) ∧
    lookupA (runRequests true r (List.replicate n model_name)).2.processes model_name
      = some r.nextId ∧
    (runRequests true r (List.replicate n model_name)).2.spawnCount
      = r.spawnCount + 1 := by
  obtain ⟨m, rfl⟩ : ∃ m, n = m + 1 := by
    cases n with
    | zero => exact absurd hn (by simp)
    | succ m => exact ⟨m, rfl⟩
  have hfirst : _get_or_start true r model_name
      = (Except.ok r.nextId,
          { processes := setA r.processes model_name r.nextId,
            nextId := r.nextId + 1, spawnCount := r.spawnCount + 1 }) := by
    unfold _get_or_start
    rw [hnew]
    simp
  have hreg : lookupA (setA r.processes model_name r.nextId) model_name
      = some r.nextId := lookupA_setA_self r.processes model_name r.nextId
  have hrest := runRequests_registered true
    ({ processes := setA r.processes model_name r.nextId,
       nextId := r.nextId + 1, spawnCount := r.spawnCount + 1 }) model_name r.nextId m hreg
  constructor
  · show (runRequests true r (model_name :: List.replicate m model_name)).1 = _
    simp [runRequests, hfirst, hrest, List.replicate_succ]
  constructor
  · show lookupA (runRequests true r (model_name :: List.replicate m model_name)).2.processes
      model_name = some r.nextId
    simp [runRequests, hfirst, hrest, hreg]
  · show (runRequests true r (model_name :: List.replicate m model_name)).2.spawnCount = _
    simp [runRequests, hfirst, hrest]

/-- Witness for `supervisor_unique_spawn`: three concurrent first-use
requests for the same model against an empty registry. -/
theorem supervisor_unique_spawn_witness :
    (runRequests true ⟨[], 0, 0⟩ (List.replicate 3 "base")).1
      = List.replicate 3 (Except.ok 0) ∧
    lookupA (runRequests true ⟨[], 0, 0⟩ (List.replicate 3 "base")).2.processes "base"
      = some 0 ∧
    (runRequests true ⟨[], 0, 0⟩ (List.replicate 3 "base")).2.spawnCount = 0 + 1 :=
  supervisor_unique_spawn ⟨[], 0, 0⟩ "base" 3 rfl (by decide)

/-- `WhisperServerManager.update_socket_count` (whisper_server_client.py
264-267), under `self.manager_lock`: read the current count (default 0),
add the delta, clamp at zero, store. -/
def update_socket_count (socket_counts : List (String × Int)) (model_name : String)
    (delta : Int) : List (String × Int) :=
  let current := (lookupA socket_counts model_name).getD 0
  setA socket_counts model_name (max 0 (current + delta))

/-- A sequence of `update_socket_count` calls, applied in order. -/
def applyCountUpdates : List (String × Int) → List (String × Int) → List (String × Int)
  | socket_counts, [] => socket_counts
  | socket_counts, (m, d) :: rest =>
    applyCountUpdates (update_socket_count socket_counts m d) rest

theorem lookupA_setA {α : Type} (l : List (String × α)) (k : String) (v : α)
    (key : String) :
    lookupA (setA l k v) key = if k = key then some v else lookupA l key := by
  induction l with
  | nil =>
    by_cases hk : k = key <;> simp [setA, lookupA, hk]
  | cons p rest ih =>
    by_cases hp : p.1 = k
    · by_cases hk : k = key
      · simp [setA, lookupA, hp, hk]
      · simp [setA, lookupA, hp, hk]
    · by_cases hk : k = key
      · subst hk
        simp [setA, lookupA, hp, ih]
      · simp [setA, lookupA, hp, hk, ih]

theorem applyCountUpdates_nonneg (updates : List (String × Int))
    (socket_counts : List (String × Int))
    (hinv : ∀ key, 0 ≤ (lookupA socket_counts key).getD 0) (key : String) :
    0 ≤ (lookupA (applyCountUpdates socket_counts updates) key).getD 0 := by
  induction updates generalizing socket_counts with
  | nil => exact hinv key
  | cons u rest ih =>
    rcases u with ⟨m, d⟩
    refine ih (update_socket_count socket_counts m d) ?_
    intro k
    unfold update_socket_count
    rw [lookupA_setA]
    by_cases hk : m = k
    · simp [hk]
    · simp [hk]
      exact hinv k

/-- Claim C10: whatever sequence of positive or negative deltas is fed to
`update_socket_count`, every per-model socket count read back from the
store (0 when absent) is non-negative, because each write clamps at zero. -/
theorem socket_counts_never_negative (updates : List (String × Int))
    (model_name : String) :
    0 ≤ (lookupA (applyCountUpdates [] updates) model_name).getD 0 :=
  applyCountUpdates_nonneg updates [] (fun _ => by simp [lookupA]) model_name
